import Mathlib

/-!
# libcfg: the configuration parser of `cfgparser.go`

A shallow embedding of `cfgParser` and of its methods `RunArgs`, `Configure`,
`Bind`, `makeCfgParser` and `newSubParser`, followed by the properties of the
design document that concern them.

Pointers of the Go program are addresses: a value cell (`optEntry.val`) is an address
into a heap of cells, a command (`*commandImpl`) is a handle.  The methods that
`cfgparser.go` calls but that live in other files of the package (`doParse`, `LoadAll`,
`doRun`, `collectBindings`, `addOpt`, `addEnv`, `UseEnv`, `makeEnvLoader`) are the fields
of `Collab`; every theorem quantifies over all of them.
-/

set_option autoImplicit false

namespace Libcfg

/-! ## Data model -/

/-- Address of a value cell (the object behind `optEntry.val`). -/
abbrev Ptr := Nat

/-- Handle of a registered command (a `*commandImpl`). -/
abbrev CmdRef := Nat

/-- A Go `error` value, identified by its message. -/
structure Error where
  msg : String
deriving DecidableEq, Repr

/-- Modelled from the spec: the four states of a Value Cell (section 3); the cell type is
declared outside `cfgparser.go`. -/
inductive CellState where
  | unset
  | setFromCli
  | setFromEnv
  | setFromDefault
deriving DecidableEq, Repr

/-- Modelled from the spec: the payload of a Value Cell, "exactly one of string, int, float,
bool, enum-string" (section 3).  A float is kept as the text it was read from. -/
inductive Value where
  | str (s : String)
  | int (n : Int)
  | float (text : String)
  | bool (b : Bool)
  | choice (s : String)
deriving DecidableEq, Repr

/-- Modelled from the spec: a Value Cell with its state, its current value and its declared
default (sections 3 and 4.2); the cell type is declared outside `cfgparser.go`. -/
structure ValueCell where
  state : CellState
  value : Value
  dflt : Value
deriving DecidableEq, Repr

/-- Modelled from the spec: `useDefault()` "sets the cell to its declared default only if its
state is unset" (section 4.2); the method is declared outside `cfgparser.go`. -/
def ValueCell.useDefault (c : ValueCell) : ValueCell :=
  if c.state = CellState.unset then
    { c with state := CellState.setFromDefault, value := c.dflt }
  else c

/-- The heap of value cells. -/
abbrev Heap := Ptr → ValueCell

/-- Store a cell at an address. -/
def Heap.write (h : Heap) (p : Ptr) (c : ValueCell) : Heap :=
  fun q => if q = p then c else h q

/-- The fields of `Options` that `cfgparser.go` reads; the type is declared outside
`cfgparser.go`. -/
structure Options where
  StrictParsing : Bool
  FilesOnly : Bool
deriving DecidableEq, Repr

/-- The zero value of `Options`. -/
def Options.zero : Options := ⟨false, false⟩

/-- Modelled from the spec: an Option Entry has a long and a short name and holds a Value
Cell (section 3); `cfgparser.go` only reaches its field `val`. -/
structure optEntry where
  long : String
  short : String
  val : Ptr
deriving DecidableEq, Repr

/-- Modelled from the spec: the Environment Loader is "sourced from process environment
and/or files" (section 3) and holds the cells bound to variable names; the type
`envLoaderImpl` is declared outside `cfgparser.go`.  What its methods do with this state is
left to `Collab`. -/
structure envLoaderImpl where
  useEnv : Bool
  files : List String
  bindings : List (Ptr × List String)
deriving DecidableEq, Repr

/-- The struct `cfgParser`; a Go map is an association list read with `List.lookup`. -/
structure cfgParser where
  options : Options
  commands : List (String × CmdRef)
  args : List String
  greedyArgs : List String
  optentries : List optEntry
  shortopt : List (String × optEntry)
  longopt : List (String × optEntry)
  envLoader : envLoaderImpl
deriving DecidableEq, Repr

/-- One element of what `collectBindings` returns; `opt` and the variable names (the field
`variables` of the source, a reserved word here) may be nil. -/
structure bindingData where
  opt : Option optEntry
  val : Ptr
  varNames : Option (List String)
deriving DecidableEq, Repr

/-- Modelled from the spec: what `LoadAll` leaves behind, and what it reports under the
signature `LoadAll() error` of section 6; the method is declared outside `cfgparser.go`. -/
structure LoadResult where
  loader : envLoaderImpl
  cells : Heap
  err : Option Error

/-- What `doParse` leaves behind and returns. -/
structure ParseResult where
  cfg : cfgParser
  cells : Heap
  err : Option Error

/-- What `doRun` returns, and the state of the commands afterwards. -/
structure RunResult (σ : Type) where
  newArgs : List String
  err : Option Error
  cmds : σ

/-- The functions of the package that `cfgparser.go` calls and that are defined in other
files.  `σ` is the state owned by the commands (each command runs a parser of its own, made
by `newSubParser`, with its own tables and cells), `τ` the type of the targets of `Bind`.
`LoadAll` has the signature `LoadAll() error` of section 6 of the design document. -/
structure Collab (σ τ : Type) where
  makeEnvLoader : envLoaderImpl
  LoadAll : envLoaderImpl → Heap → LoadResult
  doParse : cfgParser → List String → Heap → ParseResult
  doRun : CmdRef → List String → σ → RunResult σ
  collectBindings : τ → List bindingData × Option Error
  addOpt : cfgParser → optEntry → cfgParser
  addEnv : envLoaderImpl → Ptr → List String → envLoaderImpl
  UseEnv : envLoaderImpl → Bool → envLoaderImpl

/-- A parser together with the cells its entries point to and the state of its commands. -/
structure State (σ : Type) where
  cfg : cfgParser
  cells : Heap
  cmds : σ

/-- The state a call leaves, the error it returns, and the calls of `doRun` it made
(command and arguments, in order). -/
structure Outcome (σ : Type) where
  st : State σ
  err : Option Error
  invoked : List (CmdRef × List String)

/-! ## The functions of `cfgparser.go` -/

/-- `makeCfgParser` (lines 20-30). -/
def makeCfgParser {σ τ : Type} (K : Collab σ τ) : cfgParser :=
  { options := Options.zero
    commands := []
    args := []
    greedyArgs := []
    optentries := []
    shortopt := []
    longopt := []
    envLoader := K.makeEnvLoader }

/-- `newSubParser` (lines 37-39): the argument is not used. -/
def newSubParser {σ τ : Type} (K : Collab σ τ) (_original : cfgParser) : cfgParser :=
  makeCfgParser K

/-- `RunArgs`, lines 46-50: `LoadAll` (its result is dropped), then `doParse`. -/
def parsePhase {σ τ : Type} (K : Collab σ τ) (s : State σ) (args : List String) : ParseResult :=
  let l := K.LoadAll s.cfg.envLoader s.cells
  K.doParse { s.cfg with envLoader := l.loader } args l.cells

/-- `RunArgs`, lines 52-54: `useDefault` on the cell of every entry, in order. -/
def useDefaults (es : List optEntry) (h : Heap) : Heap :=
  es.foldl (fun g e => g.write e.val (g e.val).useDefault) h

/-- `RunArgs`, lines 56-67: delegation to the command named by the first residual token. -/
def delegate {σ τ : Type} (K : Collab σ τ) (s : State σ) : Outcome σ :=
  match s.cfg.args with
  | [] => ⟨s, none, []⟩
  | name :: rest =>
    match s.cfg.commands.lookup name with
    | none => ⟨s, none, []⟩
    | some cmd =>
      let r := K.doRun cmd rest s.cmds
      ⟨{ s with cfg := { s.cfg with args := r.newArgs }, cmds := r.cmds }, r.err, [(cmd, rest)]⟩

/-- `RunArgs`, lines 69-77: the strict-mode check, then the merge of the greedy arguments. -/
def finish (cfg : cfgParser) : cfgParser × Option Error :=
  match cfg.args with
  | a :: _ =>
    if cfg.options.StrictParsing then (cfg, some ⟨"unknown argument: " ++ a⟩)
    else if 0 < cfg.greedyArgs.length then ({ cfg with args := cfg.greedyArgs ++ cfg.args }, none)
    else (cfg, none)
  | [] =>
    if 0 < cfg.greedyArgs.length then ({ cfg with args := cfg.greedyArgs ++ cfg.args }, none)
    else (cfg, none)

/-- The state of `RunArgs` at line 68, after the command delegation, when `doParse`
succeeded; the outcome of `doParse` otherwise. -/
def afterCommand {σ τ : Type} (K : Collab σ τ) (s : State σ) (args : List String) : Outcome σ :=
  let p := parsePhase K s args
  match p.err with
  | some e => ⟨⟨p.cfg, p.cells, s.cmds⟩, some e, []⟩
  | none => delegate K ⟨p.cfg, useDefaults p.cfg.optentries p.cells, s.cmds⟩

/-- `RunArgs` (lines 45-78). -/
def RunArgs {σ τ : Type} (K : Collab σ τ) (s : State σ) (args : List String) : Outcome σ :=
  let p := parsePhase K s args
  match p.err with
  | some e => ⟨⟨p.cfg, p.cells, s.cmds⟩, some e, []⟩
  | none =>
    let d := delegate K ⟨p.cfg, useDefaults p.cfg.optentries p.cells, s.cmds⟩
    match d.err with
    | some e => ⟨d.st, some e, d.invoked⟩
    | none =>
      let f := finish d.st.cfg
      ⟨{ d.st with cfg := f.1 }, f.2, d.invoked⟩

/-- `Configure` (lines 80-83). -/
def Configure {σ τ : Type} (K : Collab σ τ) (cfg : cfgParser) (options : Options) : cfgParser :=
  { cfg with envLoader := K.UseEnv cfg.envLoader (!options.FilesOnly), options := options }

/-- One turn of the loop of `Bind` (lines 100-106). -/
def bindOne {σ τ : Type} (K : Collab σ τ) (cfg : cfgParser) (d : bindingData) : cfgParser :=
  let c1 := match d.opt with
    | some o => K.addOpt cfg o
    | none => cfg
  match d.varNames with
  | some vs => { c1 with envLoader := K.addEnv c1.envLoader d.val vs }
  | none => c1

/-- `Bind` (lines 93-110). -/
def Bind {σ τ : Type} (K : Collab σ τ) (cfg : cfgParser) (i : τ) : cfgParser × Option Error :=
  let r := K.collectBindings i
  match r.2 with
  | some e => (cfg, some e)
  | none => (r.1.foldl (bindOne K) cfg, none)

/-! ## Observing the calls of `doRun` -/

/-- The collaborators `K` with a `doRun` that does what the one of `K` does and also appends
the call it received (command and arguments) to a log kept in the state of the commands.
The log is written by the callee, so it holds exactly the calls that were made. -/
def traced {σ τ : Type} (K : Collab σ τ) : Collab (σ × List (CmdRef × List String)) τ :=
  { makeEnvLoader := K.makeEnvLoader
    LoadAll := K.LoadAll
    doParse := K.doParse
    doRun := fun cmd as st =>
      ⟨(K.doRun cmd as st.1).newArgs, (K.doRun cmd as st.1).err,
        ((K.doRun cmd as st.1).cmds, st.2 ++ [(cmd, as)])⟩
    collectBindings := K.collectBindings
    addOpt := K.addOpt
    addEnv := K.addEnv
    UseEnv := K.UseEnv }

/-- The state `s` with an empty log of calls. -/
def tracedState {σ : Type} (s : State σ) : State (σ × List (CmdRef × List String)) :=
  ⟨s.cfg, s.cells, (s.cmds, [])⟩

/-! ## A concrete set of collaborators, used to instantiate the theorems -/

/-- A loader that, when the process environment is one of its sources, writes an
environment value into cell 0, and that reports an error when it has files to read. -/
def demoLoadAll (l : envLoaderImpl) (h : Heap) : LoadResult :=
  ⟨l, if l.useEnv then h.write 0 ⟨CellState.setFromEnv, Value.str "env", (h 0).dflt⟩ else h,
    if l.files = [] then none else some ⟨"cannot read file"⟩⟩

/-- A scanner that knows one option, `--name VALUE`, bound to cell 0, rejects `--bad`, and
leaves every other vector as residual. -/
def demoParse (cfg : cfgParser) (args : List String) (h : Heap) : ParseResult :=
  match args with
  | [] => ⟨{ cfg with args := [] }, h, none⟩
  | a :: rest =>
    if a = "--bad" then ⟨cfg, h, some ⟨"bad option"⟩⟩
    else if a = "--name" then
      match rest with
      | [] => ⟨cfg, h, some ⟨"missing value"⟩⟩
      | v :: rest2 =>
        ⟨{ cfg with args := rest2 }, h.write 0 ⟨CellState.setFromCli, Value.str v, (h 0).dflt⟩, none⟩
    else ⟨{ cfg with args := a :: rest }, h, none⟩

/-- Command 7 consumes one token and succeeds, every other command fails; the state counts
the runs. -/
def demoRun (cmd : CmdRef) (as : List String) (n : Nat) : RunResult Nat :=
  if cmd = 7 then ⟨as.drop 1, none, n + 1⟩ else ⟨as, some ⟨"command failed"⟩, n + 1⟩

/-- The target `true` yields one binding, the target `false` is rejected. -/
def demoCollect (b : Bool) : List bindingData × Option Error :=
  if b then ([⟨some ⟨"name", "n", 0⟩, 0, some ["NAME"]⟩], none)
  else ([], some ⟨"invalid binding"⟩)

/-- The concrete collaborators. -/
def demo : Collab Nat Bool :=
  { makeEnvLoader := ⟨true, [], []⟩
    LoadAll := demoLoadAll
    doParse := demoParse
    doRun := demoRun
    collectBindings := demoCollect
    addOpt := fun cfg o => { cfg with optentries := cfg.optentries ++ [o] }
    addEnv := fun l p vs => { l with bindings := l.bindings ++ [(p, vs)] }
    UseEnv := fun l b => { l with useEnv := b } }

/-- A parser with two options (cells 0 and 1) and two commands. -/
def demoCfg : cfgParser :=
  { options := ⟨false, false⟩
    commands := [("add", 7), ("boom", 8)]
    args := []
    greedyArgs := []
    optentries := [⟨"name", "n", 0⟩, ⟨"level", "l", 1⟩]
    shortopt := [("n", ⟨"name", "n", 0⟩), ("l", ⟨"level", "l", 1⟩)]
    longopt := [("name", ⟨"name", "n", 0⟩), ("level", ⟨"level", "l", 1⟩)]
    envLoader := ⟨true, [], []⟩ }

/-- Every cell unset, with default `dflt`. -/
def demoHeap : Heap := fun _ => ⟨CellState.unset, Value.str "", Value.str "dflt"⟩

/-- The starting state of the examples. -/
def demoState : State Nat := ⟨demoCfg, demoHeap, 0⟩

/-- The same parser with strict parsing on. -/
def strictState : State Nat :=
  ⟨{ demoCfg with options := ⟨true, false⟩ }, demoHeap, 0⟩

/-- The same parser with greedy arguments collected beforehand. -/
def greedyState : State Nat :=
  ⟨{ demoCfg with greedyArgs := ["g1", "g2"] }, demoHeap, 0⟩

/-- The same parser whose loader has a file to read. -/
def fileState : State Nat :=
  ⟨{ demoCfg with envLoader := ⟨true, ["missing.env"], []⟩ }, demoHeap, 0⟩

/-! ## Auxiliary facts -/

theorem useDefault_idem (c : ValueCell) : c.useDefault.useDefault = c.useDefault := by
  unfold ValueCell.useDefault
  by_cases h : c.state = CellState.unset <;> simp [h]

theorem useDefault_of_set (c : ValueCell) (h : c.state ≠ CellState.unset) :
    c.useDefault = c := by
  simp [ValueCell.useDefault, h]

theorem useDefault_state_ne (c : ValueCell) : c.useDefault.state ≠ CellState.unset := by
  unfold ValueCell.useDefault
  by_cases h : c.state = CellState.unset <;> simp [h]

theorem useDefaults_cons (e : optEntry) (es : List optEntry) (h : Heap) :
    useDefaults (e :: es) h = useDefaults es (h.write e.val (h e.val).useDefault) := rfl

/-- The loop of lines 52-54 changes exactly the cells of the entries, each by `useDefault`,
however the entries share cells. -/
theorem useDefaults_apply (es : List optEntry) (h : Heap) (q : Ptr) :
    useDefaults es h q =
      if q ∈ es.map optEntry.val then (h q).useDefault else h q := by
  induction es generalizing h with
  | nil => simp [useDefaults]
  | cons e es ih =>
    rw [useDefaults_cons, ih]
    by_cases hq : q = e.val
    · subst hq
      by_cases hm : e.val ∈ es.map optEntry.val
      · simp [hm, Heap.write, useDefault_idem]
      · simp [hm, Heap.write]
    · by_cases hm : q ∈ es.map optEntry.val
      · simp [hm, hq, Heap.write]
      · simp [hm, hq, Heap.write]

theorem useDefaults_mem (es : List optEntry) (h : Heap) (e : optEntry) (he : e ∈ es) :
    useDefaults es h e.val = (h e.val).useDefault := by
  rw [useDefaults_apply]
  have : e.val ∈ es.map optEntry.val := List.mem_map_of_mem _ he
  simp [this]

theorem delegate_cells {σ τ : Type} (K : Collab σ τ) (s : State σ) :
    (delegate K s).st.cells = s.cells := by
  unfold delegate
  split
  · rfl
  · split <;> rfl

/-- On a successful `doParse`, the cells `RunArgs` leaves are those of the loop of
lines 52-54. -/
theorem runArgs_cells {σ τ : Type} (K : Collab σ τ) (s : State σ) (args : List String)
    (hp : (parsePhase K s args).err = none) :
    (RunArgs K s args).st.cells =
      useDefaults (parsePhase K s args).cfg.optentries (parsePhase K s args).cells := by
  unfold RunArgs
  simp only [hp]
  split
  · exact delegate_cells K _
  · exact delegate_cells K _

theorem lookup_isSome_iff_key {β : Type} (l : List (String × β)) (k : String) :
    (∃ b, l.lookup k = some b) ↔ k ∈ l.map Prod.fst := by
  induction l with
  | nil => simp
  | cons p l ih =>
    obtain ⟨k1, b1⟩ := p
    by_cases hk : k = k1
    · subst hk
      simp
    · have hb : (k == k1) = false := by simpa using hk
      simp [List.lookup_cons, hb, ih, hk]

theorem delegate_options {σ τ : Type} (K : Collab σ τ) (s : State σ) :
    (delegate K s).st.cfg.options = s.cfg.options ∧
    (delegate K s).st.cfg.greedyArgs = s.cfg.greedyArgs := by
  unfold delegate
  split
  · exact ⟨rfl, rfl⟩
  · split <;> exact ⟨rfl, rfl⟩

theorem finish_err_none_args (cfg : cfgParser) (h : (finish cfg).2 = none) :
    (finish cfg).1.args = cfg.greedyArgs ++ cfg.args := by
  unfold finish at h ⊢
  cases hargs : cfg.args with
  | nil =>
    by_cases hg : 0 < cfg.greedyArgs.length
    · simp [hg]
    · have : cfg.greedyArgs = [] := by
        cases hgl : cfg.greedyArgs with
        | nil => rfl
        | cons a l => simp [hgl] at hg
      simp [hargs, this]
  | cons a rest =>
    rw [hargs] at h
    by_cases hs : cfg.options.StrictParsing = true
    · simp [hs] at h
    · by_cases hg : 0 < cfg.greedyArgs.length
      · simp [hs, hg, hargs]
      · have : cfg.greedyArgs = [] := by
          cases hgl : cfg.greedyArgs with
          | nil => rfl
          | cons a l => simp [hgl] at hg
        simp [hs, hargs, this]

theorem finish_err (cfg : cfgParser) :
    (finish cfg).2 =
      match cfg.args with
      | a :: _ => if cfg.options.StrictParsing then some ⟨"unknown argument: " ++ a⟩ else none
      | [] => none := by
  unfold finish
  cases cfg.args with
  | nil => by_cases hg : 0 < cfg.greedyArgs.length <;> simp [hg]
  | cons a rest =>
    by_cases hs : cfg.options.StrictParsing = true
    · simp [hs]
    · by_cases hg : 0 < cfg.greedyArgs.length <;> simp [hs, hg]

/-- When `doParse` and the command succeed, `RunArgs` ends with `finish` on the parser as
it stands after the delegation. -/
theorem runArgs_of_afterCommand {σ τ : Type} (K : Collab σ τ) (s : State σ)
    (args : List String)
    (hp : (parsePhase K s args).err = none) (hc : (afterCommand K s args).err = none) :
    (RunArgs K s args).err = (finish (afterCommand K s args).st.cfg).2 ∧
    (RunArgs K s args).st.cfg = (finish (afterCommand K s args).st.cfg).1 := by
  unfold RunArgs
  unfold afterCommand at hc ⊢
  simp only [hp] at hc ⊢
  simp only [hc]
  constructor <;> first | rfl | trivial

theorem afterCommand_options {σ τ : Type} (K : Collab σ τ) (s : State σ) (args : List String)
    (hp : (parsePhase K s args).err = none) :
    (afterCommand K s args).st.cfg.options = (parsePhase K s args).cfg.options ∧
    (afterCommand K s args).st.cfg.greedyArgs = (parsePhase K s args).cfg.greedyArgs := by
  unfold afterCommand
  simp only [hp]
  exact delegate_options K _

/-- After a successful `doParse`, the log and the command state `RunArgs` leaves are those
of line 68: the strict check and the merge touch neither. -/
theorem runArgs_invoked_cmds {σ τ : Type} (K : Collab σ τ) (s : State σ)
    (args : List String) (hp : (parsePhase K s args).err = none) :
    (RunArgs K s args).invoked = (afterCommand K s args).invoked ∧
    (RunArgs K s args).st.cmds = (afterCommand K s args).st.cmds := by
  unfold RunArgs afterCommand
  simp only [hp]
  split <;> exact ⟨rfl, rfl⟩

/-- The state at line 68 when the first residual token names a command. -/
theorem afterCommand_hit {σ τ : Type} (K : Collab σ τ) (s : State σ) (args : List String)
    (hp : (parsePhase K s args).err = none) (name : String) (rest : List String)
    (cmd : CmdRef) (hargs : (parsePhase K s args).cfg.args = name :: rest)
    (hl : (parsePhase K s args).cfg.commands.lookup name = some cmd) :
    (afterCommand K s args).invoked = [(cmd, rest)] ∧
    (afterCommand K s args).st.cmds = (K.doRun cmd rest s.cmds).cmds ∧
    (afterCommand K s args).st.cfg.args = (K.doRun cmd rest s.cmds).newArgs ∧
    (afterCommand K s args).err = (K.doRun cmd rest s.cmds).err := by
  unfold afterCommand
  simp only [hp]
  unfold delegate
  simp only [hargs, hl]
  refine ⟨?_, ?_, ?_, ?_⟩ <;> first | rfl | trivial

/-- The state at line 68 when no command is named by the first residual token. -/
theorem afterCommand_miss {σ τ : Type} (K : Collab σ τ) (s : State σ) (args : List String)
    (hp : (parsePhase K s args).err = none)
    (hmiss : ∀ name rest, (parsePhase K s args).cfg.args = name :: rest →
      (parsePhase K s args).cfg.commands.lookup name = none) :
    (afterCommand K s args).invoked = [] ∧
    (afterCommand K s args).st.cmds = s.cmds ∧
    (afterCommand K s args).st.cfg.args = (parsePhase K s args).cfg.args ∧
    (afterCommand K s args).err = none := by
  unfold afterCommand
  simp only [hp]
  unfold delegate
  cases hargs : (parsePhase K s args).cfg.args with
  | nil =>
    refine ⟨?_, ?_, ?_, ?_⟩ <;> first | rfl | trivial
  | cons name rest =>
    have hl := hmiss name rest hargs
    simp only [hl]
    refine ⟨?_, ?_, ?_, ?_⟩ <;> first | rfl | trivial

/-- Recording the calls of `doRun` changes nothing of lines 46-50. -/
theorem parsePhase_traced {σ τ : Type} (K : Collab σ τ) (s : State σ) (args : List String) :
    parsePhase (traced K) (tracedState s) args = parsePhase K s args := rfl

/-- An error of the dispatched command is the error of `RunArgs`. -/
theorem runArgs_err_of_command {σ τ : Type} (K : Collab σ τ) (s : State σ)
    (args : List String) (hp : (parsePhase K s args).err = none) (e : Error)
    (hc : (afterCommand K s args).err = some e) : (RunArgs K s args).err = some e := by
  unfold RunArgs
  unfold afterCommand at hc
  simp only [hp] at hc ⊢
  simp only [hc]

/-! ## Precedence and defaults -/

/-- C1. Precedence law over `RunArgs`: when `doParse` succeeds and leaves the cell of a
registered entry set from the command line, the cell `RunArgs` leaves has that very value
(and is still set from the command line), whatever `LoadAll` wrote before `doParse` and
whatever the declared default of the cell is. -/
theorem runArgs_cli_wins {σ τ : Type} (K : Collab σ τ) (s : State σ) (args : List String)
    (e : optEntry)
    (hp : (parsePhase K s args).err = none)
    (he : e ∈ (parsePhase K s args).cfg.optentries)
    (hcli : ((parsePhase K s args).cells e.val).state = CellState.setFromCli) :
    ((RunArgs K s args).st.cells e.val).value = ((parsePhase K s args).cells e.val).value ∧
    ((RunArgs K s args).st.cells e.val).state = CellState.setFromCli := by
  rw [runArgs_cells K s args hp, useDefaults_mem _ _ e he]
  have hne : ((parsePhase K s args).cells e.val).state ≠ CellState.unset := by
    rw [hcli]; decide
  rw [useDefault_of_set _ hne]
  exact ⟨rfl, hcli⟩

/-- C1 at `--name cli`: the loader wrote `env` into cell 0, its default is `dflt`, and the
cell ends with `cli`. -/
theorem runArgs_cli_wins_witness :
    ((demo.LoadAll demoCfg.envLoader demoHeap).cells 0).value = Value.str "env" ∧
    ((parsePhase demo demoState ["--name", "cli"]).cells 0).dflt = Value.str "dflt" ∧
    ((parsePhase demo demoState ["--name", "cli"]).cells 0).value = Value.str "cli" ∧
    ((RunArgs demo demoState ["--name", "cli"]).st.cells 0).value = Value.str "cli" ∧
    ((RunArgs demo demoState ["--name", "cli"]).st.cells 0).state = CellState.setFromCli :=
  ⟨by decide, by decide, by decide,
    runArgs_cli_wins demo demoState ["--name", "cli"] ⟨"name", "n", 0⟩
      (by decide) (by decide) (by decide)⟩

/-- C2. Default law over `RunArgs`: when `doParse` succeeds, `RunArgs` applies `useDefault`
to the cell of every entry of `optentries`; so the cell of a registered option that is still
unset after `LoadAll` and `doParse` ends with its declared default as value and in state
set-from-default, and no registered option is left with an unset cell, whether `RunArgs`
then returns an error (command, strict mode) or not. -/
theorem runArgs_defaults {σ τ : Type} (K : Collab σ τ) (s : State σ) (args : List String)
    (hp : (parsePhase K s args).err = none) :
    ∀ e ∈ (parsePhase K s args).cfg.optentries,
      (RunArgs K s args).st.cells e.val = ((parsePhase K s args).cells e.val).useDefault ∧
      (((parsePhase K s args).cells e.val).state = CellState.unset →
        ((RunArgs K s args).st.cells e.val).value = ((parsePhase K s args).cells e.val).dflt ∧
        ((RunArgs K s args).st.cells e.val).state = CellState.setFromDefault) ∧
      ((RunArgs K s args).st.cells e.val).state ≠ CellState.unset := by
  intro e he
  have hcell : (RunArgs K s args).st.cells e.val
      = ((parsePhase K s args).cells e.val).useDefault := by
    rw [runArgs_cells K s args hp, useDefaults_mem _ _ e he]
  refine ⟨hcell, ?_, ?_⟩
  · intro hu
    rw [hcell]
    simp [ValueCell.useDefault, hu]
  · rw [hcell]
    exact useDefault_state_ne _

/-- C2 at the vector `boom x`: the option `level` (cell 1) is given nowhere, the command
`boom` fails, and cell 1 still ends with its default. -/
theorem runArgs_defaults_witness :
    (parsePhase demo demoState ["boom", "x"]).err = none ∧
    ((parsePhase demo demoState ["boom", "x"]).cells 1).state = CellState.unset ∧
    (RunArgs demo demoState ["boom", "x"]).err = some ⟨"command failed"⟩ ∧
    ((RunArgs demo demoState ["boom", "x"]).st.cells 1).value = Value.str "dflt" ∧
    ((RunArgs demo demoState ["boom", "x"]).st.cells 1).state = CellState.setFromDefault :=
  ⟨by decide, by decide, by decide,
    ((runArgs_defaults demo demoState ["boom", "x"] (by decide)
      ⟨"level", "l", 1⟩ (by decide)).2.1 (by decide))⟩

/-! ## Command delegation, the strict check and the final operand list -/

/-- C3. Command delegation in `RunArgs`: when `doParse` succeeds, `doRun` is invoked if and
only if the residual list is not empty and its first token is a key of the commands map; in
that case the command stored under that token is the only one invoked, once, on the residual
tokens after the first (the state of the commands is the one that single call leaves, and
the log a recording `doRun` keeps holds that call alone), and the list it returns becomes the
residual list; otherwise nothing is invoked (the state of the commands is untouched, the
recorded log is empty) and the residual list stays as `doParse` left it. -/
theorem runArgs_delegation {σ τ : Type} (K : Collab σ τ) (s : State σ) (args : List String)
    (hp : (parsePhase K s args).err = none) :
    ((RunArgs K s args).invoked ≠ [] ↔
      ∃ name rest, (parsePhase K s args).cfg.args = name :: rest ∧
        name ∈ (parsePhase K s args).cfg.commands.map Prod.fst) ∧
    ((RunArgs (traced K) (tracedState s) args).st.cmds.2 ≠ [] ↔
      ∃ name rest, (parsePhase K s args).cfg.args = name :: rest ∧
        name ∈ (parsePhase K s args).cfg.commands.map Prod.fst) ∧
    (∀ name rest, (parsePhase K s args).cfg.args = name :: rest →
      name ∈ (parsePhase K s args).cfg.commands.map Prod.fst →
      ∃ cmd, (parsePhase K s args).cfg.commands.lookup name = some cmd ∧
        (RunArgs K s args).invoked = [(cmd, rest)] ∧
        (afterCommand K s args).st.cfg.args = (K.doRun cmd rest s.cmds).newArgs ∧
        (RunArgs K s args).st.cmds = (K.doRun cmd rest s.cmds).cmds ∧
        (RunArgs (traced K) (tracedState s) args).st.cmds.2 = [(cmd, rest)]) ∧
    ((RunArgs K s args).invoked = [] →
      (afterCommand K s args).st.cfg.args = (parsePhase K s args).cfg.args) ∧
    ((¬ ∃ name rest, (parsePhase K s args).cfg.args = name :: rest ∧
        name ∈ (parsePhase K s args).cfg.commands.map Prod.fst) →
      (RunArgs K s args).invoked = [] ∧
      (RunArgs K s args).st.cmds = s.cmds ∧
      (RunArgs (traced K) (tracedState s) args).st.cmds.2 = [] ∧
      (afterCommand K s args).st.cfg.args = (parsePhase K s args).cfg.args) := by
  have hpt : (parsePhase (traced K) (tracedState s) args).err = none := hp
  obtain ⟨hinv, hcmds⟩ := runArgs_invoked_cmds K s args hp
  have hcmdsT := (runArgs_invoked_cmds (traced K) (tracedState s) args hpt).2
  rw [hinv, hcmds, hcmdsT]
  by_cases hex : ∃ name rest, (parsePhase K s args).cfg.args = name :: rest ∧
      name ∈ (parsePhase K s args).cfg.commands.map Prod.fst
  · obtain ⟨name, rest, hargs, hk⟩ := hex
    obtain ⟨cmd, hl⟩ := (lookup_isSome_iff_key _ _).mpr hk
    obtain ⟨h1, h2, h3, _⟩ := afterCommand_hit K s args hp name rest cmd hargs hl
    obtain ⟨_, t2, _, _⟩ :=
      afterCommand_hit (traced K) (tracedState s) args hpt name rest cmd hargs hl
    have t2b : (afterCommand (traced K) (tracedState s) args).st.cmds.2 = [(cmd, rest)] := by
      rw [t2]; rfl
    refine ⟨?_, ?_, ?_, ?_, ?_⟩
    · rw [h1]
      exact ⟨fun _ => ⟨name, rest, hargs, hk⟩, fun _ h => by cases h⟩
    · rw [t2b]
      exact ⟨fun _ => ⟨name, rest, hargs, hk⟩, fun _ h => by cases h⟩
    · intro n r hnr _
      rw [hargs] at hnr
      cases hnr
      exact ⟨cmd, hl, h1, h3, h2, t2b⟩
    · intro h
      rw [h1] at h
      cases h
    · intro hno
      exact absurd ⟨name, rest, hargs, hk⟩ hno
  · have hmiss : ∀ name rest, (parsePhase K s args).cfg.args = name :: rest →
        (parsePhase K s args).cfg.commands.lookup name = none := by
      intro name rest hargs
      cases hl : (parsePhase K s args).cfg.commands.lookup name with
      | none => rfl
      | some cmd =>
        exact absurd ⟨name, rest, hargs, (lookup_isSome_iff_key _ _).mp ⟨cmd, hl⟩⟩ hex
    obtain ⟨h1, h2, h3, _⟩ := afterCommand_miss K s args hp hmiss
    obtain ⟨_, t2, _, _⟩ := afterCommand_miss (traced K) (tracedState s) args hpt hmiss
    have t2b : (afterCommand (traced K) (tracedState s) args).st.cmds.2 = [] := by
      rw [t2]; rfl
    refine ⟨?_, ?_, ?_, ?_, ?_⟩
    · rw [h1]
      exact ⟨fun h => absurd rfl h, fun h => absurd h hex⟩
    · rw [t2b]
      exact ⟨fun h => absurd rfl h, fun h => absurd h hex⟩
    · intro n r hnr hk
      exact absurd ⟨n, r, hnr, hk⟩ hex
    · intro _
      exact h3
    · intro _
      exact ⟨h1, h2, t2b, h3⟩

/-- C3 at `add 1 2`: command 7 (`add`) runs once on `1 2`, the counter of runs goes from 0
to 1 and the recorded log holds that one call; at `x add` nothing runs. -/
theorem runArgs_delegation_witness :
    (RunArgs demo demoState ["x", "add"]).st.cmds = 0 ∧
    (RunArgs (traced demo) (tracedState demoState) ["x", "add"]).st.cmds.2 = [] ∧
    (RunArgs demo demoState ["add", "1", "2"]).st.cmds = 1 ∧
    ∃ cmd, demoCfg.commands.lookup "add" = some cmd ∧
      (RunArgs demo demoState ["add", "1", "2"]).invoked = [(cmd, ["1", "2"])] ∧
      (afterCommand demo demoState ["add", "1", "2"]).st.cfg.args
        = (demo.doRun cmd ["1", "2"] 0).newArgs ∧
      (RunArgs demo demoState ["add", "1", "2"]).st.cmds = (demo.doRun cmd ["1", "2"] 0).cmds ∧
      (RunArgs (traced demo) (tracedState demoState) ["add", "1", "2"]).st.cmds.2
        = [(cmd, ["1", "2"])] :=
  ⟨by decide, by decide, by decide,
    (runArgs_delegation demo demoState ["add", "1", "2"] (by decide)).2.2.1
      "add" ["1", "2"] (by decide) (by decide)⟩

/-- C4. Strict-mode residual check: when `doParse` and the dispatched command (if any)
succeed, `RunArgs` returns an error if and only if `StrictParsing` is on and the residual
list after the delegation is not empty, and that error is `unknown argument: ` followed by
the first token of that list. -/
theorem runArgs_strict_check {σ τ : Type} (K : Collab σ τ) (s : State σ) (args : List String)
    (hp : (parsePhase K s args).err = none) (hc : (afterCommand K s args).err = none) :
    ((RunArgs K s args).err ≠ none ↔
      (parsePhase K s args).cfg.options.StrictParsing = true ∧
        (afterCommand K s args).st.cfg.args ≠ []) ∧
    (∀ err, (RunArgs K s args).err = some err →
      ∃ tok rest, (afterCommand K s args).st.cfg.args = tok :: rest ∧
        err = ⟨"unknown argument: " ++ tok⟩) := by
  rw [(runArgs_of_afterCommand K s args hp hc).1, finish_err,
    ← (afterCommand_options K s args hp).1]
  cases hargs : (afterCommand K s args).st.cfg.args with
  | nil => simp
  | cons tok rest =>
    by_cases hs : (afterCommand K s args).st.cfg.options.StrictParsing = true
    · simp [hs]
    · simp [hs]

/-- C4 at `--nope` in strict mode: the error names `--nope`. -/
theorem runArgs_strict_check_witness :
    (parsePhase demo strictState ["--nope"]).err = none ∧
    (afterCommand demo strictState ["--nope"]).err = none ∧
    (RunArgs demo strictState ["--nope"]).err = some ⟨"unknown argument: --nope"⟩ ∧
    ∃ tok rest, (afterCommand demo strictState ["--nope"]).st.cfg.args = tok :: rest ∧
      (⟨"unknown argument: --nope"⟩ : Error) = ⟨"unknown argument: " ++ tok⟩ :=
  ⟨by decide, by decide, by decide,
    (runArgs_strict_check demo strictState ["--nope"] (by decide) (by decide)).2
      ⟨"unknown argument: --nope"⟩ (by decide)⟩

/-- C9. Final operand list: whenever `RunArgs` returns nil, `args` is `greedyArgs` followed
by the residual list as it stood after the delegation; in strict mode it is `greedyArgs`
exactly; and when `doParse` and the command succeed and no residual token is left, `RunArgs`
returns nil whatever `greedyArgs` holds. -/
theorem runArgs_final_args {σ τ : Type} (K : Collab σ τ) (s : State σ) (args : List String) :
    ((RunArgs K s args).err = none →
      (RunArgs K s args).st.cfg.args =
        (parsePhase K s args).cfg.greedyArgs ++ (afterCommand K s args).st.cfg.args ∧
      ((parsePhase K s args).cfg.options.StrictParsing = true →
        (RunArgs K s args).st.cfg.args = (parsePhase K s args).cfg.greedyArgs)) ∧
    ((parsePhase K s args).err = none → (afterCommand K s args).err = none →
      (afterCommand K s args).st.cfg.args = [] → (RunArgs K s args).err = none) := by
  constructor
  · intro h
    have hp : (parsePhase K s args).err = none := by
      cases hpe : (parsePhase K s args).err with
      | none => rfl
      | some e =>
        unfold RunArgs at h
        simp [hpe] at h
    have hc : (afterCommand K s args).err = none := by
      cases hce : (afterCommand K s args).err with
      | none => rfl
      | some e =>
        unfold RunArgs at h
        unfold afterCommand at hce
        simp only [hp] at h hce
        simp [hce] at h
    obtain ⟨he, hcfg⟩ := runArgs_of_afterCommand K s args hp hc
    obtain ⟨hopt, hgr⟩ := afterCommand_options K s args hp
    rw [he] at h
    have hargs := finish_err_none_args _ h
    rw [hcfg, hargs, hgr]
    refine ⟨rfl, ?_⟩
    intro hs
    rw [finish_err] at h
    cases hres : (afterCommand K s args).st.cfg.args with
    | nil => simp
    | cons a rest =>
      rw [hres, hopt, hs] at h
      simp at h
  · intro hp hc hres
    rw [(runArgs_of_afterCommand K s args hp hc).1, finish_err, hres]

/-- C9 at `add 1 2` with greedy arguments `g1 g2`: command 7 returns `2`, the call succeeds,
and `args` ends as `g1 g2 2`. -/
theorem runArgs_final_args_witness :
    (RunArgs demo greedyState ["add", "1", "2"]).err = none ∧
    (afterCommand demo greedyState ["add", "1", "2"]).st.cfg.args = ["2"] ∧
    (RunArgs demo greedyState ["add", "1", "2"]).st.cfg.args =
      (parsePhase demo greedyState ["add", "1", "2"]).cfg.greedyArgs ++
        (afterCommand demo greedyState ["add", "1", "2"]).st.cfg.args :=
  ⟨by decide, by decide,
    ((runArgs_final_args demo greedyState ["add", "1", "2"]).1 (by decide)).1⟩

/-! ## Errors -/

/-- C5. Error propagation in `RunArgs`: an error of `doParse` is returned as it is and the
state is the one `doParse` left (no default applied, no command invoked, no strict check, no
merge); an error of the dispatched command is returned as it is, `args` is the list the
command returned (not merged, not checked), and the cells are those resolved by `doParse`
and the defaults. -/
theorem runArgs_error_propagation {σ τ : Type} (K : Collab σ τ) (s : State σ)
    (args : List String) :
    (∀ err, (parsePhase K s args).err = some err →
      (RunArgs K s args).err = some err ∧
      (RunArgs K s args).st.cfg = (parsePhase K s args).cfg ∧
      (RunArgs K s args).st.cells = (parsePhase K s args).cells ∧
      (RunArgs K s args).st.cmds = s.cmds ∧
      (RunArgs K s args).invoked = []) ∧
    (∀ name rest cmd err, (parsePhase K s args).err = none →
      (parsePhase K s args).cfg.args = name :: rest →
      (parsePhase K s args).cfg.commands.lookup name = some cmd →
      (K.doRun cmd rest s.cmds).err = some err →
      (RunArgs K s args).err = some err ∧
      (RunArgs K s args).st.cfg =
        { (parsePhase K s args).cfg with args := (K.doRun cmd rest s.cmds).newArgs } ∧
      (RunArgs K s args).st.cells =
        useDefaults (parsePhase K s args).cfg.optentries (parsePhase K s args).cells ∧
      (RunArgs K s args).invoked = [(cmd, rest)]) := by
  constructor
  · intro err hp
    unfold RunArgs
    simp only [hp]
    refine ⟨?_, ?_, ?_, ?_, ?_⟩ <;> first | rfl | trivial
  · intro name rest cmd err hp hargs hl hrun
    refine ⟨?_, ?_, runArgs_cells K s args hp, ?_⟩
    all_goals
      unfold RunArgs
      simp only [hp]
      unfold delegate
      simp only [hargs, hl, hrun]

/-- C5 at `--bad` (the scanner fails, cell 1 stays unset) and at `boom x` in strict mode
(the command fails, its residual `x` is neither checked nor merged). -/
theorem runArgs_error_propagation_witness :
    ((RunArgs demo demoState ["--bad"]).err = some ⟨"bad option"⟩ ∧
      (RunArgs demo demoState ["--bad"]).st.cfg = (parsePhase demo demoState ["--bad"]).cfg ∧
      (RunArgs demo demoState ["--bad"]).st.cells = (parsePhase demo demoState ["--bad"]).cells ∧
      (RunArgs demo demoState ["--bad"]).st.cmds = 0 ∧
      (RunArgs demo demoState ["--bad"]).invoked = []) ∧
    ((RunArgs demo strictState ["boom", "x"]).err = some ⟨"command failed"⟩ ∧
      (RunArgs demo strictState ["boom", "x"]).st.cfg =
        { (parsePhase demo strictState ["boom", "x"]).cfg with
          args := (demo.doRun 8 ["x"] 0).newArgs } ∧
      (RunArgs demo strictState ["boom", "x"]).st.cells =
        useDefaults (parsePhase demo strictState ["boom", "x"]).cfg.optentries
          (parsePhase demo strictState ["boom", "x"]).cells ∧
      (RunArgs demo strictState ["boom", "x"]).invoked = [(8, ["x"])]) :=
  ⟨(runArgs_error_propagation demo demoState ["--bad"]).1 ⟨"bad option"⟩ (by decide),
    (runArgs_error_propagation demo strictState ["boom", "x"]).2 "boom" ["x"] 8
      ⟨"command failed"⟩ (by decide) (by decide) (by decide) (by decide)⟩

/-- C6, the claim as stated fails: the loader of `fileState` reports an error from
`LoadAll`, and `RunArgs` on the empty vector returns nil all the same. -/
theorem runArgs_loadAll_error_lost :
    ¬ ((demo.LoadAll fileState.cfg.envLoader fileState.cells).err ≠ none →
      (RunArgs demo fileState []).err ≠ none) := by
  decide

/-- C6, amended. `RunArgs` returns an error exactly when `doParse` fails, when the
dispatched command fails, or when the strict check finds a residual token; and its whole
outcome is the same whatever `LoadAll` reports, line 46 being a call whose result is not
looked at. -/
theorem runArgs_error_sources {σ τ : Type} (K : Collab σ τ) (s : State σ)
    (args : List String) :
    ((RunArgs K s args).err ≠ none ↔
      (parsePhase K s args).err ≠ none ∨ (afterCommand K s args).err ≠ none ∨
      ((parsePhase K s args).cfg.options.StrictParsing = true ∧
        (afterCommand K s args).st.cfg.args ≠ [])) ∧
    (∀ report : Option Error,
      RunArgs { K with LoadAll := fun l h => { K.LoadAll l h with err := report } } s args
        = RunArgs K s args) := by
  refine ⟨?_, fun _ => rfl⟩
  cases hp : (parsePhase K s args).err with
  | some e =>
    have : (RunArgs K s args).err = some e := by
      unfold RunArgs
      simp only [hp]
    simp [this]
  | none =>
    cases hc : (afterCommand K s args).err with
    | some e =>
      rw [runArgs_err_of_command K s args hp e hc]
      simp
    | none =>
      rw [(runArgs_of_afterCommand K s args hp hc).1, finish_err,
        ← (afterCommand_options K s args hp).1]
      cases hargs : (afterCommand K s args).st.cfg.args with
      | nil => simp
      | cons tok rest =>
        by_cases hs : (afterCommand K s args).st.cfg.options.StrictParsing = true
        · simp [hs]
        · simp [hs]

/-- C7. `Bind` returns exactly the error of `collectBindings` (so it fails if and only if
the collection fails), and when it fails the parser is left as it was: no entry is added to
`optentries`, `shortopt` or `longopt`, no binding to the loader. -/
theorem bind_failure_atomic {σ τ : Type} (K : Collab σ τ) (cfg : cfgParser) (i : τ) :
    ((Bind K cfg i).2 ≠ none ↔ (K.collectBindings i).2 ≠ none) ∧
    (Bind K cfg i).2 = (K.collectBindings i).2 ∧
    ((Bind K cfg i).2 ≠ none →
      (Bind K cfg i).1 = cfg ∧
      (Bind K cfg i).1.optentries = cfg.optentries ∧
      (Bind K cfg i).1.shortopt = cfg.shortopt ∧
      (Bind K cfg i).1.longopt = cfg.longopt ∧
      (Bind K cfg i).1.envLoader = cfg.envLoader) := by
  have herr : (Bind K cfg i).2 = (K.collectBindings i).2 := by
    unfold Bind
    cases h : (K.collectBindings i).2 <;> simp [h]
  refine ⟨by rw [herr], herr, ?_⟩
  intro hne
  have hcfg : (Bind K cfg i).1 = cfg := by
    rw [herr] at hne
    unfold Bind
    cases h : (K.collectBindings i).2 with
    | none => exact absurd h hne
    | some e => simp [h]
  rw [hcfg]
  exact ⟨rfl, rfl, rfl, rfl, rfl⟩

/-- C7 at the rejected target `false`: the parser is unchanged; the accepted target `true`
does add an entry. -/
theorem bind_failure_atomic_witness :
    (Bind demo demoCfg false).2 = some ⟨"invalid binding"⟩ ∧
    (Bind demo demoCfg true).1.optentries ≠ demoCfg.optentries ∧
    (Bind demo demoCfg false).1 = demoCfg ∧
    (Bind demo demoCfg false).1.optentries = demoCfg.optentries ∧
    (Bind demo demoCfg false).1.shortopt = demoCfg.shortopt ∧
    (Bind demo demoCfg false).1.longopt = demoCfg.longopt ∧
    (Bind demo demoCfg false).1.envLoader = demoCfg.envLoader :=
  ⟨by decide, by decide, (bind_failure_atomic demo demoCfg false).2.2 (by decide)⟩

/-! ## Construction and configuration -/

/-- C8. `newSubParser(original)` is a freshly made parser whatever `original` is: its
tables and lists are empty and its options are the zero value, so strict parsing is off and
no long or short name is registered in it. -/
theorem newSubParser_fresh {σ τ : Type} (K : Collab σ τ) (original : cfgParser) :
    newSubParser K original = makeCfgParser K ∧
    (newSubParser K original).commands = [] ∧
    (newSubParser K original).args = [] ∧
    (newSubParser K original).greedyArgs = [] ∧
    (newSubParser K original).optentries = [] ∧
    (newSubParser K original).shortopt = [] ∧
    (newSubParser K original).longopt = [] ∧
    (newSubParser K original).options = Options.zero ∧
    (newSubParser K original).options.StrictParsing = false ∧
    (newSubParser K original).envLoader = K.makeEnvLoader ∧
    (∀ name, (newSubParser K original).longopt.lookup name = none ∧
      (newSubParser K original).shortopt.lookup name = none) := by
  refine ⟨rfl, rfl, rfl, rfl, rfl, rfl, rfl, rfl, rfl, rfl, ?_⟩
  intro name
  exact ⟨rfl, rfl⟩

/-- C10. `Configure(o)` sets the options to `o` (so strict parsing is on if and only if
`o.StrictParsing`), hands the loader to `UseEnv` with an argument that is true if and only
if `o.FilesOnly` is false, and leaves `commands`, `args`, `greedyArgs`, `optentries`,
`shortopt` and `longopt` as they were; a second `Configure(o)` repeats the same call of
`UseEnv` and changes nothing else, so it yields the same state whenever repeating a call
of `UseEnv` does. -/
theorem configure_frame {σ τ : Type} (K : Collab σ τ) (cfg : cfgParser) (o : Options) :
    (Configure K cfg o).options = o ∧
    ((Configure K cfg o).options.StrictParsing = true ↔ o.StrictParsing = true) ∧
    (∃ b, (Configure K cfg o).envLoader = K.UseEnv cfg.envLoader b ∧
      (b = true ↔ o.FilesOnly = false)) ∧
    (Configure K cfg o).commands = cfg.commands ∧
    (Configure K cfg o).args = cfg.args ∧
    (Configure K cfg o).greedyArgs = cfg.greedyArgs ∧
    (Configure K cfg o).optentries = cfg.optentries ∧
    (Configure K cfg o).shortopt = cfg.shortopt ∧
    (Configure K cfg o).longopt = cfg.longopt ∧
    Configure K (Configure K cfg o) o =
      { Configure K cfg o with
        envLoader := K.UseEnv (Configure K cfg o).envLoader (!o.FilesOnly) } ∧
    ((∀ l b, K.UseEnv (K.UseEnv l b) b = K.UseEnv l b) →
      Configure K (Configure K cfg o) o = Configure K cfg o) := by
  refine ⟨rfl, Iff.rfl, ⟨!o.FilesOnly, rfl, by simp⟩, rfl, rfl, rfl, rfl, rfl, rfl, rfl, ?_⟩
  intro hidem
  unfold Configure
  simp only [hidem]

/-- C10 with a loader whose `UseEnv` sets a switch: configuring twice with files only is
configuring once, and the switch is off. -/
theorem configure_frame_witness :
    (Configure demo demoCfg ⟨true, true⟩).envLoader.useEnv = false ∧
    Configure demo (Configure demo demoCfg ⟨true, true⟩) ⟨true, true⟩
      = Configure demo demoCfg ⟨true, true⟩ :=
  ⟨by decide,
    (configure_frame demo demoCfg ⟨true, true⟩).2.2.2.2.2.2.2.2.2.2 (fun _ _ => rfl)⟩

end Libcfg
